import Mathlib

/-!
Verification of the AugmentOS Cloud session and routing core against its
specification. The definitions below are a shallow embedding of the
TypeScript services in `packages/cloud/src/services` (websocket.service.ts,
transcription.service.ts) and of the client-side VAD gate
(SpeechRecAugmentos.java). Stateful code is modelled by explicit state
passing; side effects (webhooks, channel sends, persistence) are recorded
in effect lists; timers are modelled as separate step functions invoked at
expiry.
-/

namespace AugmentOS

/-! ## Microphone state debouncer (websocket.service.ts, sendDebouncedMicrophoneStateChange) -/

/-- Outputs produced by the microphone debouncer: a `microphone_state_change`
message to the glasses, or a call into the transcription service at timer
expiry. -/
inductive MicOut
  | micStateMsg (isEnabled : Bool)
  | startTranscriptionCall
  | stopTranscriptionCall
deriving DecidableEq, Repr

/-- The per-session debouncer record `{ timer, lastState, lastSentState }`.
The timer handle itself is modelled by `debounceTimerFire` below, which is
the body of the `setTimeout` callback. -/
structure MicrophoneStateChangeDebouncer where
  lastState : Bool
  lastSentState : Bool
deriving DecidableEq, Repr

/-- One call to `sendDebouncedMicrophoneStateChange`. With no debouncer
present (first call) the message is sent immediately and a record with
`lastState = lastSentState = isEnabled` is created; a subsequent call only
updates `lastState` and (implicitly) restarts the timer. -/
def sendDebouncedMicrophoneStateChange (db : Option MicrophoneStateChangeDebouncer)
    (isEnabled : Bool) : Option MicrophoneStateChangeDebouncer × List MicOut :=
  match db with
  | none => (some { lastState := isEnabled, lastSentState := isEnabled },
             [MicOut.micStateMsg isEnabled])
  | some d => (some { d with lastState := isEnabled }, [])

/-- The debounce timer callback: if the desired state differs from the last
sent state, send the message and update `lastSentState`; then
unconditionally start or stop transcription according to `lastSentState`;
finally delete the debouncer record. -/
def debounceTimerFire (d : MicrophoneStateChangeDebouncer) :
    Option MicrophoneStateChangeDebouncer × List MicOut :=
  let step :=
    if d.lastState ≠ d.lastSentState then
      ({ d with lastSentState := d.lastState }, [MicOut.micStateMsg d.lastState])
    else (d, ([] : List MicOut))
  let trans :=
    if step.1.lastSentState then [MicOut.startTranscriptionCall]
    else [MicOut.stopTranscriptionCall]
  (none, step.2 ++ trans)

/-- Runs a burst of calls to the debouncer. All calls fall inside one
debounce window, so the timer never fires between them. -/
def runMicBurst (db : Option MicrophoneStateChangeDebouncer) (requests : List Bool) :
    Option MicrophoneStateChangeDebouncer × List MicOut :=
  match requests with
  | [] => (db, [])
  | r :: rest =>
    let step := sendDebouncedMicrophoneStateChange db r
    let toEnd := runMicBurst step.1 rest
    (toEnd.1, step.2 ++ toEnd.2)

/-- A burst of requests starting with no debouncer present, followed by the
expiry of the (last restarted) debounce timer. -/
def runMicBurstThenExpire (requests : List Bool) :
    Option MicrophoneStateChangeDebouncer × List MicOut :=
  let burst := runMicBurst none requests
  match burst.1 with
  | none => (none, burst.2)
  | some d =>
    let fire := debounceTimerFire d
    (fire.1, burst.2 ++ fire.2)

/-- Number of `microphone_state_change` sends in an output list. -/
def countMicSends (outs : List MicOut) : Nat :=
  outs.countP (fun o => match o with | MicOut.micStateMsg _ => true | _ => false)

/-! ## Transcript history (transcription.service.ts, updateTranscriptHistory) -/

/-- Retention window used when pruning the transcript buffer. -/
def THIRTY_MINUTES_MS : Int := 30 * 60 * 1000

/-- A transcript segment as stored in `userSession.transcript.segments`.
Timestamps are in milliseconds. -/
structure TranscriptSegment where
  resultId : String
  speakerId : String
  text : String
  timestamp : Int
  isFinal : Bool
deriving DecidableEq, Repr

/-- The fields of `event.result` that `updateTranscriptHistory` reads. -/
structure RecognitionResult where
  resultId : String
  speakerId : String
  text : String
deriving DecidableEq, Repr

/-- Whether a segment survives the prune performed on every insert:
`seg.timestamp >= currentTime - 30 * 60 * 1000`. -/
def inRetentionWindow (currentTime : Int) (seg : TranscriptSegment) : Bool :=
  decide (currentTime - THIRTY_MINUTES_MS ≤ seg.timestamp)

/-- `TranscriptionService.updateTranscriptHistory`: mutate the segment list
for one recognizer event, then prune segments older than thirty minutes. -/
def updateTranscriptHistory (segments : List TranscriptSegment)
    (result : RecognitionResult) (isFinal : Bool) (currentTime : Int) :
    List TranscriptSegment :=
  let hasInterimLast :=
    match segments.getLast? with
    | some s => !s.isFinal
    | none => false
  let newSeg : TranscriptSegment :=
    { resultId := result.resultId, speakerId := result.speakerId,
      text := result.text, timestamp := currentTime, isFinal := isFinal }
  let inserted :=
    if isFinal then
      (if hasInterimLast then segments.dropLast else segments) ++ [newSeg]
    else
      if hasInterimLast then segments.dropLast ++ [newSeg]
      else segments ++ [newSeg]
  inserted.filter (inRetentionWindow currentTime)

/-- The `transcribing`/`transcribed` handlers of the transcription branch in
`setupRecognitionHandlersForInstance`: they return early on empty text and
call `updateTranscriptHistory` only when the transcribe language is
`en-US`. -/
def onTranscriptionResult (transcribeLanguage : String)
    (segments : List TranscriptSegment) (result : RecognitionResult)
    (isFinal : Bool) (currentTime : Int) : List TranscriptSegment :=
  if result.text = "" then segments
  else if transcribeLanguage = "en-US" then
    updateTranscriptHistory segments result isFinal currentTime
  else segments

/-- The `recognizing`/`recognized` handlers of the translation branch in
`setupRecognitionHandlersForInstance`: they return early when the result
carries no translations and otherwise call `updateTranscriptHistory`
unconditionally, for every language pair. The language parameters are those
of the stream and do not influence the history update. -/
def onTranslationResult (transcribeLanguage translateLanguage : String)
    (hasTranslations : Bool) (segments : List TranscriptSegment)
    (result : RecognitionResult) (isFinal : Bool) (currentTime : Int) :
    List TranscriptSegment :=
  if hasTranslations then
    updateTranscriptHistory segments result isFinal currentTime
  else segments

/-- Insert step exactly as the claim words it: an interim result replaces
the last segment when that segment is interim (otherwise it is appended); a
final result removes a trailing interim segment if present and then appends
as final. Written from the claim, to be compared with the code. -/
def claimInsertSegment (segments : List TranscriptSegment)
    (seg : TranscriptSegment) : List TranscriptSegment :=
  if seg.isFinal then
    (match segments.getLast? with
     | some last => if last.isFinal then segments else segments.dropLast
     | none => segments) ++ [seg]
  else
    match segments.getLast? with
    | some last =>
      if last.isFinal then segments ++ [seg] else segments.dropLast ++ [seg]
    | none => segments ++ [seg]

/-! ## Client-side VAD gate (SpeechRecAugmentos.java) -/

/-- Rolling-buffer capacity: about 220 ms of audio at 10 ms per LC3 frame. -/
def LC3_BUFFER_MAX_SIZE : Nat := 22

/-- Messages the gate emits to the server through ServerComms: a VAD status
control message or a live audio chunk. Chunks are opaque and identified by a
number. -/
inductive GateOut
  | vadStatusMsg (isNowSpeaking : Bool)
  | audioChunkSend (chunk : Nat)
deriving DecidableEq, Repr

/-- The state of the gate: `isSpeaking` (the volatile field),
`previousVadState` (local to the VAD listener loop), the LC3 rolling buffer
(oldest first), and the two configuration flags read by
`ingestAudioChunk`. -/
structure VadGateState where
  isSpeaking : Bool
  previousVadState : Bool
  lc3RollingBuffer : List Nat
  bypassVadForDebugging : Bool
  sendPcmToBackend : Bool
deriving DecidableEq, Repr

/-- The `while (size > MAX) remove(0)` loop that trims the rolling buffer
after an add: removing from the front until at most `LC3_BUFFER_MAX_SIZE`
chunks remain is dropping the excess prefix in one step. -/
def dropOldest (buffer : List Nat) : List Nat :=
  buffer.drop (buffer.length - LC3_BUFFER_MAX_SIZE)

/-- Add a chunk copy to the rolling buffer, keeping at most
`LC3_BUFFER_MAX_SIZE` chunks (oldest removed first). -/
def addToRollingBuffer (buffer : List Nat) (chunk : Nat) : List Nat :=
  dropOldest (buffer ++ [chunk])

/-- `sendBufferedAudio`: drain a snapshot of the rolling buffer to the
server as live audio chunks (the buffer itself is not cleared). -/
def sendBufferedAudio (st : VadGateState) : List GateOut :=
  st.lc3RollingBuffer.map GateOut.audioChunkSend

/-- One iteration of the `setupVadListener` loop observing the polled VAD
state: on a change to speaking, send `vad:true`, then the buffered audio,
then record speaking; on a change to silent, send `vad:false`. -/
def vadListenerStep (st : VadGateState) (newVadIsSpeakingState : Bool) :
    VadGateState × List GateOut :=
  if newVadIsSpeakingState ≠ st.previousVadState then
    if newVadIsSpeakingState then
      ({ st with isSpeaking := true, previousVadState := true },
       GateOut.vadStatusMsg true :: sendBufferedAudio st)
    else
      ({ st with isSpeaking := false, previousVadState := false },
       [GateOut.vadStatusMsg false])
  else (st, [])

/-- `ingestAudioChunk` (PCM path): the chunk is always added to the rolling
buffer; it is sent live only when the debug bypass flag is set or the gate
is currently speaking. -/
def ingestAudioChunk (st : VadGateState) (chunk : Nat) :
    VadGateState × List GateOut :=
  if st.sendPcmToBackend then
    let st1 := { st with
      lc3RollingBuffer := addToRollingBuffer st.lc3RollingBuffer chunk }
    if st.bypassVadForDebugging || st.isSpeaking then
      (st1, [GateOut.audioChunkSend chunk])
    else (st1, [])
  else (st, [])

/-- Interleaved events at the gate: an inbound audio chunk or one poll of
the VAD model by the listener loop. -/
inductive GateEvent
  | audio (chunk : Nat)
  | vadPoll (newState : Bool)
deriving DecidableEq, Repr

/-- Sequential semantics of the gate over a list of events. -/
def runVadGate (st : VadGateState) (events : List GateEvent) :
    VadGateState × List GateOut :=
  match events with
  | [] => (st, [])
  | e :: rest =>
    let step :=
      match e with
      | GateEvent.audio c => ingestAudioChunk st c
      | GateEvent.vadPoll b => vadListenerStep st b
    let toEnd := runVadGate step.1 rest
    (toEnd.1, step.2 ++ toEnd.2)

/-! ## TPA lifecycle (websocket.service.ts: startAppSession, stopAppSession,
handleTpaInit, and the glasses channel close/error handlers) -/

/-- App kinds (`TpaType` in the SDK): "background" | "standard" |
"system_dashboard". -/
inductive TpaType
  | standard
  | background
  | systemDashboard
deriving DecidableEq, Repr

/-- The fields of an app record that the lifecycle code reads. -/
structure AppRecord where
  packageName : String
  publicUrl : String
  isSystemApp : Bool
  tpaType : TpaType
deriving DecidableEq, Repr

/-- The app catalog behind `appService.getApp`. -/
abbrev AppCatalog := List AppRecord

/-- `appService.getApp(packageName)`. -/
def getApp (catalog : AppCatalog) (packageName : String) : Option AppRecord :=
  catalog.find? (fun a => a.packageName == packageName)

/-- A package resolves to a STANDARD app record; a package missing from the
catalog is not STANDARD (the lookup error path of the enumeration loop in
`startAppSession` skips it). -/
def isStandardApp (catalog : AppCatalog) (packageName : String) : Bool :=
  match getApp catalog packageName with
  | some app => app.tpaType == TpaType.standard
  | none => false

/-- The slice of a `UserSession` that the lifecycle operations mutate.
`appConnections` holds the package names with a stored TPA channel;
`subscriptions` maps package names to their stream keys. -/
structure SessionState where
  sessionId : String
  activeAppSessions : List String
  loadingApps : List String
  appConnections : List String
  subscriptions : List (String × List String)
deriving DecidableEq, Repr

/-- Side effects the lifecycle operations perform, in order. Webhook
effects carry whether the HTTP call succeeded. -/
inductive LifecycleEffect
  | sessionRequestWebhook (packageName : String) (succeeded : Bool)
  | displayHandleAppStart (packageName : String)
  | displayHandleAppStop (packageName : String)
  | stopRequestWebhook (packageName : String) (succeeded : Bool)
  | appChannelClosed (packageName : String)
  | persistAddRunningApp (packageName : String)
  | persistRemoveRunningApp (packageName : String)
  | micStateRequest (isEnabled : Bool)
  | tpaConnectionAck (packageName : String)
deriving DecidableEq, Repr

/-- Modelled from the spec: `subscription.service.ts` is not among the
provided sources. Spec section 4.2 defines `hasMediaSubscriptions` as true
iff any package subscribes to a key requiring microphone capture
(`transcription:*`, `translation:*`, `audio_chunk`, `vad`). -/
def isMediaStreamKey (key : String) : Bool :=
  key == "audio_chunk" || key == "vad"
    || key.startsWith "transcription" || key.startsWith "translation"

/-- Modelled from the spec: section 4.2, true iff any package of the session
subscribes to a media key. -/
def hasMediaSubscriptions (subs : List (String × List String)) : Bool :=
  subs.any (fun e => e.2.any isMediaStreamKey)

/-- Modelled from the spec: section 4.2 `remove(session, packageName)` drops
the entries of that package. -/
def removeSubscriptions (subs : List (String × List String))
    (packageName : String) : List (String × List String) :=
  subs.filter (fun e => e.1 ≠ packageName)

/-- Failure injection for the best-effort and throwing sub-steps of
`stopAppSession`. The webhook, channel close and persistence steps are
wrapped in their own try/catch and never propagate; a throw from the
subscription removal or the display update reaches the outer catch, which
re-filters `activeAppSessions` and rethrows. -/
structure StopFailSpec where
  removeSubscriptionsThrows : Bool
  stopWebhookFails : Bool
  channelCloseFails : Bool
  persistFails : Bool
  displayUpdateThrows : Bool
deriving DecidableEq, Repr

/-- All sub-steps succeed. -/
def noStopFailures : StopFailSpec :=
  { removeSubscriptionsThrows := false, stopWebhookFails := false,
    channelCloseFails := false, persistFails := false,
    displayUpdateThrows := false }

/-- Errors `stopAppSession` propagates. -/
inductive StopError
  | appNotFound
  | stopFailed
deriving DecidableEq, Repr

/-- `WebSocketService.stopAppSession`. Returns the new session state, the
effect trace and the outcome. Steps in source order: app lookup (throws
before touching the session when the record is missing); subscription
removal; filter out of `activeAppSessions`; best-effort stop webhook;
best-effort channel close and `appConnections` delete (only when a channel
is present); best-effort persistence; display update; debounced mic-off
when no media subscriptions remain. The outer catch re-filters
`activeAppSessions` before rethrowing. -/
def stopAppSession (catalog : AppCatalog) (fail : StopFailSpec)
    (s : SessionState) (packageName : String) :
    SessionState × List LifecycleEffect × Except StopError Bool :=
  match getApp catalog packageName with
  | none => (s, [], Except.error StopError.appNotFound)
  | some _app =>
    if fail.removeSubscriptionsThrows then
      ({ s with activeAppSessions := s.activeAppSessions.filter (· ≠ packageName) },
       [], Except.error StopError.stopFailed)
    else
      let s1 := { s with
        subscriptions := removeSubscriptions s.subscriptions packageName,
        activeAppSessions := s.activeAppSessions.filter (· ≠ packageName) }
      let webhookEffects := [LifecycleEffect.stopRequestWebhook packageName
        (!fail.stopWebhookFails)]
      let closeChannel := !fail.channelCloseFails && packageName ∈ s1.appConnections
      let s2 :=
        if closeChannel then
          { s1 with appConnections := s1.appConnections.filter (· ≠ packageName) }
        else s1
      let closeEffects :=
        if closeChannel then [LifecycleEffect.appChannelClosed packageName] else []
      let persistEffects :=
        if fail.persistFails then [] else [LifecycleEffect.persistRemoveRunningApp packageName]
      if fail.displayUpdateThrows then
        ({ s2 with activeAppSessions := s2.activeAppSessions.filter (· ≠ packageName) },
         webhookEffects ++ closeEffects ++ persistEffects,
         Except.error StopError.stopFailed)
      else
        let displayEffects := [LifecycleEffect.displayHandleAppStop packageName]
        let micEffects :=
          if hasMediaSubscriptions s2.subscriptions then []
          else [LifecycleEffect.micStateRequest false]
        (s2, webhookEffects ++ closeEffects ++ persistEffects ++ displayEffects ++ micEffects,
         Except.ok true)

/-- Failure injection for `startAppSession`: the session-request webhook
may fail (propagates after removing the package from `loadingApps`); the
persistence step is best-effort; the nested stops of other STANDARD apps
use their own failure spec. -/
structure StartFailSpec where
  webhookFails : Bool
  persistFails : Bool
  stopFail : StopFailSpec
deriving DecidableEq, Repr

/-- All sub-steps succeed. -/
def noStartFailures : StartFailSpec :=
  { webhookFails := false, persistFails := false, stopFail := noStopFailures }

/-- Errors `startAppSession` propagates. -/
inductive StartError
  | appNotFound
  | webhookError
deriving DecidableEq, Repr

/-- Stops a list of packages in order with `stopAppSession`, threading the
session state and concatenating effect traces; errors of individual stops
are caught by the caller loop and iteration continues. -/
def stopAppsInOrder (catalog : AppCatalog) (fail : StopFailSpec) :
    SessionState → List String → SessionState × List LifecycleEffect
  | s, [] => (s, [])
  | s, q :: rest =>
    let step := stopAppSession catalog fail s q
    let toEnd := stopAppsInOrder catalog fail step.1 rest
    (toEnd.1, step.2.1 ++ toEnd.2)

/-- `WebSocketService.startAppSession`. Steps in source order: return the
composite id at once when the package is already loading or active; resolve
the app record (throws `AppNotFound`); when the app is STANDARD, enumerate
the other active STANDARD apps and stop them first; add to `loadingApps`;
dispatch the session-request webhook (on failure: remove from `loadingApps`
and rethrow); render the boot screen; schedule the loading timeout
(`startAppTimerFire` below); append to `activeAppSessions` and remove from
`loadingApps` immediately; best-effort persistence; debounced mic-on when
media subscriptions exist; return the composite id. -/
def startAppSession (catalog : AppCatalog) (fail : StartFailSpec)
    (s : SessionState) (packageName : String) :
    SessionState × List LifecycleEffect × Except StartError String :=
  if packageName ∈ s.loadingApps ∨ packageName ∈ s.activeAppSessions then
    (s, [], Except.ok (s.sessionId ++ "-" ++ packageName))
  else
    match getApp catalog packageName with
    | none => (s, [], Except.error StartError.appNotFound)
    | some app =>
      let stopped :=
        if app.tpaType == TpaType.standard then
          let runningStandardApps := s.activeAppSessions.filter
            (fun q => q != packageName && isStandardApp catalog q)
          stopAppsInOrder catalog fail.stopFail s runningStandardApps
        else (s, [])
      let s1 := stopped.1
      let s2 := { s1 with loadingApps :=
        if packageName ∈ s1.loadingApps then s1.loadingApps
        else s1.loadingApps ++ [packageName] }
      if fail.webhookFails then
        ({ s2 with loadingApps := s2.loadingApps.filter (· ≠ packageName) },
         stopped.2 ++ [LifecycleEffect.sessionRequestWebhook packageName false],
         Except.error StartError.webhookError)
      else
        let s3 := { s2 with activeAppSessions :=
          if packageName ∈ s2.activeAppSessions then s2.activeAppSessions
          else s2.activeAppSessions ++ [packageName] }
        let s4 := { s3 with loadingApps := s3.loadingApps.filter (· ≠ packageName) }
        let persistEffects :=
          if fail.persistFails then []
          else [LifecycleEffect.persistAddRunningApp packageName]
        let micEffects :=
          if hasMediaSubscriptions s4.subscriptions then
            [LifecycleEffect.micStateRequest true]
          else []
        (s4,
         stopped.2 ++ [LifecycleEffect.sessionRequestWebhook packageName true,
                       LifecycleEffect.displayHandleAppStart packageName]
           ++ persistEffects ++ micEffects,
         Except.ok (s.sessionId ++ "-" ++ packageName))

/-- The `setTimeout(TPA_SESSION_TIMEOUT_MS)` callback registered by
`startAppSession`: when the package is still in `loadingApps` at expiry,
remove it and tear down the boot screen; otherwise do nothing. -/
def startAppTimerFire (s : SessionState) (packageName : String) :
    SessionState × List LifecycleEffect :=
  if packageName ∈ s.loadingApps then
    ({ s with loadingApps := s.loadingApps.filter (· ≠ packageName) },
     [LifecycleEffect.displayHandleAppStop packageName])
  else (s, [])

/-- Outcome of `handleTpaInit`: the channel is closed for an invalid API
key; otherwise the connection is stored and an ack is sent.
`warnedNotInLists` records that the handler logged its warning for a
non-system package in neither `loadingApps` nor `activeAppSessions` (the
rejection on that path is commented out in the source). -/
inductive TpaInitOutcome
  | invalidKey
  | accepted (warnedNotInLists : Bool)
deriving DecidableEq, Repr

/-- `WebSocketService.handleTpaInit` for an existing user session:
validate the API key (closing the channel when invalid); warn, without
rejecting, when a non-system package is in neither `loadingApps` nor
`activeAppSessions`; store the connection in `appConnections`; move the
package from `loadingApps` to `activeAppSessions` when it was loading; send
the connection ack. -/
def handleTpaInit (systemAppPackages : List String) (apiKeyValid : Bool)
    (s : SessionState) (packageName : String) :
    SessionState × List LifecycleEffect × TpaInitOutcome :=
  if !apiKeyValid then (s, [], TpaInitOutcome.invalidKey)
  else
    let isSystemApp := packageName ∈ systemAppPackages
    let isLoading := packageName ∈ s.loadingApps
    let isActive := packageName ∈ s.activeAppSessions
    let s1 := { s with appConnections :=
      if packageName ∈ s.appConnections then s.appConnections
      else s.appConnections ++ [packageName] }
    let s2 :=
      if isLoading then
        { s1 with
          loadingApps := s1.loadingApps.filter (· ≠ packageName),
          activeAppSessions :=
            if packageName ∈ s1.activeAppSessions then s1.activeAppSessions
            else s1.activeAppSessions ++ [packageName] }
      else s1
    (s2, [LifecycleEffect.tpaConnectionAck packageName],
     TpaInitOutcome.accepted (!isSystemApp && !isLoading && !isActive))

/-! ## Glasses channel close and error handlers (handleGlassesConnection) -/

/-- Session lifecycle states. Modelled from the spec: the bodies of
`sessionService.markSessionDisconnected` and `sessionService.endSession`
are not among the provided sources; section 4.1 specifies them as the
transitions to `Disconnected` and `Ended`. -/
inductive SessionLifecycle
  | active
  | disconnected
  | ended
deriving DecidableEq, Repr

/-- The reconnection grace period of the close handler: one minute. -/
def RECONNECT_GRACE_PERIOD_MS : Nat := 1000 * 60 * 1

/-- Lifecycle view of one glasses session: its state and the deadline of a
pending grace-period cleanup timer, when one is scheduled. -/
structure GlassesSession where
  lifecycle : SessionLifecycle
  graceTimerDeadline : Option Nat
deriving DecidableEq, Repr

/-- The `ws.on close` handler: mark the session disconnected and schedule
the cleanup timer `RECONNECT_GRACE_PERIOD_MS` from now. -/
def handleGlassesClose (_g : GlassesSession) (now : Nat) : GlassesSession :=
  { lifecycle := SessionLifecycle.disconnected,
    graceTimerDeadline := some (now + RECONNECT_GRACE_PERIOD_MS) }

/-- The grace-timer callback: end the session only when the glasses channel
readyState is still CLOSED or CLOSING; otherwise leave the session alone. -/
def handleGraceTimerFire (g : GlassesSession) (wsStillClosed : Bool) :
    GlassesSession :=
  if wsStillClosed then
    { lifecycle := SessionLifecycle.ended, graceTimerDeadline := none }
  else g

/-- The `ws.on error` handler: call `sessionService.endSession` at once and
close the channel. -/
def handleGlassesError (_g : GlassesSession) : GlassesSession :=
  { lifecycle := SessionLifecycle.ended, graceTimerDeadline := none }

/-! ## ASR stream multiplexer (transcription.service.ts,
updateTranscriptionStreams) -/

/-- Effects of the stream update: creating a recognizer/push-stream pair
for a subscription, and the teardown steps of
`stopIndividualTranscriptionStream`. -/
inductive AsrEffect
  | createdStream (subscription : String)
  | stoppedRecognizer (subscription : String)
  | closedRecognizer (subscription : String)
  | closedPushStream (subscription : String)
deriving DecidableEq, Repr

/-- Key set of the `transcriptionStreams` map, modelled as an association
list in insertion order; stream instances are identified by a number. -/
def streamKeys (streams : List (String × Nat)) : List String :=
  streams.map Prod.fst

/-- First phase of `updateTranscriptionStreams`: for each desired
subscription not already present, create a stream and insert it. Iterating
the raw list with a presence check coincides with iterating the
deduplicated `Set` of the source. -/
def createMissingStreams (streams : List (String × Nat)) (desired : List String)
    (fresh : Nat) : List (String × Nat) × List AsrEffect × Nat :=
  match desired with
  | [] => (streams, [], fresh)
  | k :: rest =>
    if k ∈ streamKeys streams then createMissingStreams streams rest fresh
    else
      let toEnd := createMissingStreams (streams ++ [(k, fresh)]) rest (fresh + 1)
      (toEnd.1, AsrEffect.createdStream k :: toEnd.2.1, toEnd.2.2)

/-- Second phase of `updateTranscriptionStreams`: every stream whose key is
no longer desired is stopped (recognizer stopped and closed, push stream
closed) and removed from the map. -/
def stopRemovedStreams (streams : List (String × Nat)) (desired : List String) :
    List (String × Nat) × List AsrEffect :=
  match streams with
  | [] => ([], [])
  | (k, v) :: rest =>
    let toEnd := stopRemovedStreams rest desired
    if k ∈ desired then ((k, v) :: toEnd.1, toEnd.2)
    else
      (toEnd.1,
       AsrEffect.stoppedRecognizer k :: AsrEffect.closedRecognizer k ::
         AsrEffect.closedPushStream k :: toEnd.2)

/-- `TranscriptionService.updateTranscriptionStreams`: create missing
streams for the desired subscriptions, then stop and remove the streams no
longer desired. `fresh` seeds the identifiers of newly created
instances. -/
def updateTranscriptionStreams (streams : List (String × Nat))
    (desiredSubscriptions : List String) (fresh : Nat) :
    List (String × Nat) × List AsrEffect :=
  let created := createMissingStreams streams desiredSubscriptions fresh
  let stopped := stopRemovedStreams created.1 desiredSubscriptions
  (stopped.1, created.2.1 ++ stopped.2)

/-! ## Concrete instances used by counterexamples and witnesses -/

/-- A catalog holding one non-system BACKGROUND app. -/
def exampleCatalog : AppCatalog :=
  [{ packageName := "com.x", publicUrl := "http://x", isSystemApp := false,
     tpaType := TpaType.background }]

/-- A fresh session with no running apps. -/
def emptySession : SessionState :=
  { sessionId := "sess1", activeAppSessions := [], loadingApps := [],
    appConnections := [], subscriptions := [] }

/-- Record of the STANDARD app `com.a`. -/
def recordA : AppRecord :=
  { packageName := "com.a", publicUrl := "u", isSystemApp := false,
    tpaType := TpaType.standard }

/-- Record of the STANDARD app `com.b`. -/
def recordB : AppRecord :=
  { packageName := "com.b", publicUrl := "u", isSystemApp := false,
    tpaType := TpaType.standard }

/-- Record of the BACKGROUND app `com.bg`. -/
def recordBg : AppRecord :=
  { packageName := "com.bg", publicUrl := "u", isSystemApp := false,
    tpaType := TpaType.background }

/-- A catalog with two STANDARD apps and one BACKGROUND app. -/
def standardCatalog : AppCatalog := [recordA, recordB, recordBg]

/-- A session in which the STANDARD app `com.a` and the BACKGROUND app
`com.bg` are active, with a bound channel and a subscription for
`com.a`. -/
def standardSession : SessionState :=
  { sessionId := "s", activeAppSessions := ["com.a", "com.bg"],
    loadingApps := [], appConnections := ["com.a"],
    subscriptions := [("com.a", ["transcription:en-US"])] }

/-- A session in which `com.x` is active but no app channel is bound. -/
def activeXSession : SessionState :=
  { sessionId := "s", activeAppSessions := ["com.x"], loadingApps := [],
    appConnections := [], subscriptions := [] }

/-! ## Theorems -/

/-- C2 counterexample: from an Active session with no pending grace timer,
the glasses channel error handler ends the session at once, with no
disconnected state and no grace deadline. -/
theorem glasses_error_immediate_end_cex :
    handleGlassesError
        { lifecycle := SessionLifecycle.active, graceTimerDeadline := none } =
      { lifecycle := SessionLifecycle.ended, graceTimerDeadline := none }
    ∧ SessionLifecycle.ended ≠ SessionLifecycle.disconnected := by
  exact ⟨rfl, by decide⟩

/-- C2 (amended): a close on the glasses channel never ends the session
immediately; it transitions to Disconnected with a 60-second grace
deadline, and the session is ended automatically only when the grace timer
fires while the channel is still closed. An error on the glasses channel,
however, ends the session immediately. -/
theorem glasses_close_grace_transitions (g : GlassesSession) (now : Nat) :
    (handleGlassesClose g now).lifecycle = SessionLifecycle.disconnected
    ∧ (handleGlassesClose g now).graceTimerDeadline
        = some (now + RECONNECT_GRACE_PERIOD_MS)
    ∧ RECONNECT_GRACE_PERIOD_MS = 60000
    ∧ handleGraceTimerFire (handleGlassesClose g now) true
        = { lifecycle := SessionLifecycle.ended, graceTimerDeadline := none }
    ∧ handleGraceTimerFire (handleGlassesClose g now) false
        = handleGlassesClose g now
    ∧ (handleGlassesError g).lifecycle = SessionLifecycle.ended :=
  ⟨rfl, rfl, rfl, rfl, rfl, rfl⟩

/-- C8: while the package is already loading or active, `startAppSession`
leaves the session untouched, performs no effect, and returns the stable
composite id `sessionId-packageName`. -/
theorem startApp_noop_when_running (catalog : AppCatalog) (fail : StartFailSpec)
    (s : SessionState) (packageName : String)
    (h : packageName ∈ s.loadingApps ∨ packageName ∈ s.activeAppSessions) :
    startAppSession catalog fail s packageName =
      (s, [], Except.ok (s.sessionId ++ "-" ++ packageName)) := by
  simp [startAppSession, h]

/-- C8 witness: `com.x` is active in `activeXSession` and starting it again
is a no-op returning `s-com.x`. -/
theorem startApp_noop_when_running_witness :
    ("com.x" ∈ activeXSession.loadingApps ∨ "com.x" ∈ activeXSession.activeAppSessions)
    ∧ startAppSession exampleCatalog noStartFailures activeXSession "com.x" =
        (activeXSession, [],
         Except.ok (activeXSession.sessionId ++ "-" ++ "com.x")) :=
  ⟨Or.inr (by decide),
   startApp_noop_when_running exampleCatalog noStartFailures activeXSession "com.x"
     (Or.inr (by decide))⟩

/-- Helper: a burst entering an existing debouncer only updates
`lastState` to the last request and sends nothing. -/
theorem runMicBurst_some (d : MicrophoneStateChangeDebouncer) :
    ∀ rest : List Bool,
      runMicBurst (some d) rest =
        (some { lastState := rest.getLastD d.lastState,
                lastSentState := d.lastSentState }, []) := by
  have step : ∀ (d' : MicrophoneStateChangeDebouncer) (rest : List Bool),
      runMicBurst (some d') rest =
        (some { lastState := rest.getLastD d'.lastState,
                lastSentState := d'.lastSentState }, []) := by
    intro d' rest
    induction rest generalizing d' with
    | nil => simp [runMicBurst]
    | cons r rs ih =>
      rw [List.getLastD_cons]
      simp only [runMicBurst, sendDebouncedMicrophoneStateChange]
      rw [ih { d' with lastState := r }]
      simp
  exact step d

/-- C6: a nonempty burst of alternating microphone-state requests inside
one debounce window, starting with no debouncer, produces exactly the
immediate first send when the final desired state equals the state sent
first, and exactly the immediate send plus one send at expiry otherwise;
the expiry always invokes start or stop transcription matching the final
last-sent state, and the debouncer record is discarded. -/
theorem mic_debounce_burst_sends (r : Bool) (rest : List Bool)
    (halt : List.Chain' (fun a b => b = !a) (r :: rest)) :
    runMicBurstThenExpire (r :: rest) =
      (none,
       (if rest.getLastD r = r then [MicOut.micStateMsg r]
        else [MicOut.micStateMsg r, MicOut.micStateMsg (rest.getLastD r)])
         ++ [if rest.getLastD r then MicOut.startTranscriptionCall
             else MicOut.stopTranscriptionCall])
    ∧ countMicSends (runMicBurstThenExpire (r :: rest)).2
        = (if rest.getLastD r = r then 1 else 2) := by
  have hburst : runMicBurst none (r :: rest) =
      (some { lastState := rest.getLastD r, lastSentState := r },
       [MicOut.micStateMsg r]) := by
    simp only [runMicBurst, sendDebouncedMicrophoneStateChange]
    rw [runMicBurst_some]
    simp
  generalize hL : rest.getLastD r = L at hburst ⊢
  have hmain : runMicBurstThenExpire (r :: rest) =
      (none,
       (if L = r then [MicOut.micStateMsg r]
        else [MicOut.micStateMsg r, MicOut.micStateMsg L])
         ++ [if L then MicOut.startTranscriptionCall
             else MicOut.stopTranscriptionCall]) := by
    by_cases h : L = r <;>
      simp [runMicBurstThenExpire, hburst, debounceTimerFire, h] <;>
      split <;> rfl
  refine ⟨hmain, ?_⟩
  rw [hmain]
  cases L <;> cases r <;> decide

/-- C6 witness: the alternating burst on, off inside one window yields two
sends (on immediately, off at expiry), a stop-transcription call matching
the final sent state, and a discarded debouncer. -/
theorem mic_debounce_burst_sends_witness :
    List.Chain' (fun a b => b = !a) [true, false]
    ∧ runMicBurstThenExpire [true, false] =
        (none, [MicOut.micStateMsg true, MicOut.micStateMsg false,
                MicOut.stopTranscriptionCall])
    ∧ countMicSends (runMicBurstThenExpire [true, false]).2 = 2 := by
  have hchain : List.Chain' (fun a b => b = !a) [true, false] := by
    simp [List.chain'_cons]
  have h := mic_debounce_burst_sends true [false] hchain
  exact ⟨hchain, by simpa using h.1, by simpa using h.2⟩

/-- C7 counterexample: a translation recognizer event whose source language
is Spanish (not English base transcription) appends a segment to the
session transcript buffer. -/
theorem transcript_translation_append_cex :
    onTranslationResult "es-ES" "fr-FR" true []
        { resultId := "r1", speakerId := "spk", text := "bonjour" } false 0 =
      [{ resultId := "r1", speakerId := "spk", text := "bonjour",
         timestamp := 0, isFinal := false }] := by
  decide

/-- C7 (amended): the transcript buffer is appended to for English (en-US)
base transcription events and, in addition, for every translation event
regardless of language; each insert follows the claimed
replace-interim/append-final rule and is followed by the thirty-minute
prune, so every surviving segment is within the retention window. -/
theorem transcript_history_insert_spec (transcribeLanguage translateLanguage : String)
    (segments : List TranscriptSegment) (result : RecognitionResult)
    (isFinal : Bool) (currentTime : Int) (htext : result.text ≠ "") :
    updateTranscriptHistory segments result isFinal currentTime =
      (claimInsertSegment segments
        { resultId := result.resultId, speakerId := result.speakerId,
          text := result.text, timestamp := currentTime,
          isFinal := isFinal }).filter (inRetentionWindow currentTime)
    ∧ onTranscriptionResult transcribeLanguage segments result isFinal currentTime =
        (if transcribeLanguage = "en-US" then
          updateTranscriptHistory segments result isFinal currentTime
        else segments)
    ∧ onTranslationResult transcribeLanguage translateLanguage true segments
        result isFinal currentTime =
        updateTranscriptHistory segments result isFinal currentTime
    ∧ ∀ seg ∈ updateTranscriptHistory segments result isFinal currentTime,
        currentTime - THIRTY_MINUTES_MS ≤ seg.timestamp := by
  refine ⟨?_, ?_, ?_, ?_⟩
  · cases h : segments.getLast? with
    | none => cases isFinal <;> simp [updateTranscriptHistory, claimInsertSegment, h]
    | some last =>
      cases hf : last.isFinal <;> cases isFinal <;>
        simp [updateTranscriptHistory, claimInsertSegment, h, hf]
  · simp [onTranscriptionResult, htext]
  · simp [onTranslationResult]
  · intro seg hseg
    simp only [updateTranscriptHistory, List.mem_filter, inRetentionWindow,
      decide_eq_true_eq] at hseg
    exact hseg.2

/-- C7 witness: a nonempty English interim result appended to an empty
buffer equals the claim-side insert followed by the prune. -/
theorem transcript_history_insert_spec_witness :
    ({ resultId := "r", speakerId := "sp", text := "hi" } : RecognitionResult).text ≠ ""
    ∧ onTranscriptionResult "en-US" []
        { resultId := "r", speakerId := "sp", text := "hi" } false 1000 =
        updateTranscriptHistory []
          { resultId := "r", speakerId := "sp", text := "hi" } false 1000 := by
  have h := transcript_history_insert_spec "en-US" "en-US" []
    { resultId := "r", speakerId := "sp", text := "hi" } false 1000 (by decide)
  exact ⟨by decide, by simpa using h.2.1⟩

/-- C9: in the client-side VAD gate with the debug bypass unset and the
PCM path enabled, a chunk arriving while Silent is never sent live and is
only added to the rolling buffer; across the event sequence chunk, poll
speaking, chunk, poll silent, the outputs are exactly the `vad:true`
message, then the flushed rolling buffer (including the silent chunk),
then the live chunk, then the `vad:false` message. -/
theorem vad_gate_silent_buffer_flush (st : VadGateState) (c c2 : Nat)
    (hSilent : st.isSpeaking = false) (hPrev : st.previousVadState = false)
    (hBypass : st.bypassVadForDebugging = false)
    (hPcm : st.sendPcmToBackend = true) :
    (ingestAudioChunk st c).2 = []
    ∧ (ingestAudioChunk st c).1.lc3RollingBuffer
        = addToRollingBuffer st.lc3RollingBuffer c
    ∧ (runVadGate st [GateEvent.audio c, GateEvent.vadPoll true,
                      GateEvent.audio c2, GateEvent.vadPoll false]).2 =
        GateOut.vadStatusMsg true
          :: (addToRollingBuffer st.lc3RollingBuffer c).map GateOut.audioChunkSend
          ++ [GateOut.audioChunkSend c2, GateOut.vadStatusMsg false] := by
  refine ⟨?_, ?_, ?_⟩ <;>
    simp [runVadGate, ingestAudioChunk, vadListenerStep, sendBufferedAudio,
      hSilent, hPrev, hBypass, hPcm]

/-- C9 witness: a concrete Silent state with one buffered chunk shows no
live send while Silent and the exact flush order on the transition. -/
theorem vad_gate_silent_buffer_flush_witness :
    ({ isSpeaking := false, previousVadState := false, lc3RollingBuffer := [7],
       bypassVadForDebugging := false, sendPcmToBackend := true } : VadGateState).isSpeaking = false
    ∧ (runVadGate
        { isSpeaking := false, previousVadState := false, lc3RollingBuffer := [7],
          bypassVadForDebugging := false, sendPcmToBackend := true }
        [GateEvent.audio 1, GateEvent.vadPoll true,
         GateEvent.audio 2, GateEvent.vadPoll false]).2 =
      [GateOut.vadStatusMsg true, GateOut.audioChunkSend 7,
       GateOut.audioChunkSend 1, GateOut.audioChunkSend 2,
       GateOut.vadStatusMsg false] := by
  have h := vad_gate_silent_buffer_flush
    { isSpeaking := false, previousVadState := false, lc3RollingBuffer := [7],
      bypassVadForDebugging := false, sendPcmToBackend := true }
    1 2 rfl rfl rfl rfl
  refine ⟨rfl, ?_⟩
  rw [h.2.2]
  decide

/-- Helper: the empty map has no keys. -/
theorem streamKeys_nil : streamKeys [] = [] := rfl

/-- Helper: keys of a cons cell. -/
theorem streamKeys_cons (k : String) (v : Nat) (l : List (String × Nat)) :
    streamKeys ((k, v) :: l) = k :: streamKeys l := rfl

/-- Helper: appending one entry appends its key. -/
theorem streamKeys_append_single (m : List (String × Nat)) (k : String) (v : Nat) :
    streamKeys (m ++ [(k, v)]) = streamKeys m ++ [k] := by
  simp [streamKeys]

/-- Helper: keys of the map after the create phase are the old keys united
with the desired subscriptions. -/
theorem createMissingStreams_keys (a : String) :
    ∀ (desired : List String) (m : List (String × Nat)) (fresh : Nat),
      a ∈ streamKeys (createMissingStreams m desired fresh).1
        ↔ a ∈ streamKeys m ∨ a ∈ desired := by
  intro desired
  induction desired with
  | nil => intro m fresh; simp [createMissingStreams]
  | cons k rest ih =>
    intro m fresh
    by_cases hak : a = k
    · subst hak
      by_cases hk : a ∈ streamKeys m <;>
        simp [createMissingStreams, hk, ih, streamKeys_append_single]
    · by_cases hk : k ∈ streamKeys m <;>
        simp [createMissingStreams, hk, ih, streamKeys_append_single, hak]

/-- Helper: a create effect is emitted exactly for the desired keys that
were not present before the update. -/
theorem createMissingStreams_created (a : String) :
    ∀ (desired : List String) (m : List (String × Nat)) (fresh : Nat),
      AsrEffect.createdStream a ∈ (createMissingStreams m desired fresh).2.1
        ↔ a ∈ desired ∧ a ∉ streamKeys m := by
  intro desired
  induction desired with
  | nil => intro m fresh; simp [createMissingStreams]
  | cons k rest ih =>
    intro m fresh
    by_cases hak : a = k
    · subst hak
      by_cases hk : a ∈ streamKeys m <;>
        simp [createMissingStreams, hk, ih, streamKeys_append_single]
    · by_cases hk : k ∈ streamKeys m <;>
        simp [createMissingStreams, hk, ih, streamKeys_append_single, hak]

/-- Helper: the create phase emits no recognizer-stop effect. -/
theorem createMissingStreams_no_stopped (a : String) :
    ∀ (desired : List String) (m : List (String × Nat)) (fresh : Nat),
      AsrEffect.stoppedRecognizer a ∉ (createMissingStreams m desired fresh).2.1 := by
  intro desired
  induction desired with
  | nil => intro m fresh; simp [createMissingStreams]
  | cons k rest ih =>
    intro m fresh
    by_cases hk : k ∈ streamKeys m <;> simp [createMissingStreams, hk, ih]

/-- Helper: the create phase emits no push-stream-close effect. -/
theorem createMissingStreams_no_closedPush (a : String) :
    ∀ (desired : List String) (m : List (String × Nat)) (fresh : Nat),
      AsrEffect.closedPushStream a ∉ (createMissingStreams m desired fresh).2.1 := by
  intro desired
  induction desired with
  | nil => intro m fresh; simp [createMissingStreams]
  | cons k rest ih =>
    intro m fresh
    by_cases hk : k ∈ streamKeys m <;> simp [createMissingStreams, hk, ih]

/-- Helper: keys surviving the stop phase are the previous keys that are
still desired. -/
theorem stopRemovedStreams_keys (a : String) (d : List String) :
    ∀ m : List (String × Nat),
      a ∈ streamKeys (stopRemovedStreams m d).1 ↔ a ∈ streamKeys m ∧ a ∈ d := by
  intro m
  induction m with
  | nil => simp [stopRemovedStreams, streamKeys_nil]
  | cons e rest ih =>
    obtain ⟨k, v⟩ := e
    by_cases hak : a = k
    · subst hak
      by_cases hk : a ∈ d <;> simp [stopRemovedStreams, hk, ih, streamKeys_cons]
    · by_cases hk : k ∈ d <;>
        simp [stopRemovedStreams, hk, ih, streamKeys_cons, hak]

/-- Helper: a recognizer-stop effect is emitted exactly for the previous
keys that are no longer desired. -/
theorem stopRemovedStreams_stopped (a : String) (d : List String) :
    ∀ m : List (String × Nat),
      AsrEffect.stoppedRecognizer a ∈ (stopRemovedStreams m d).2
        ↔ a ∈ streamKeys m ∧ a ∉ d := by
  intro m
  induction m with
  | nil => simp [stopRemovedStreams, streamKeys_nil]
  | cons e rest ih =>
    obtain ⟨k, v⟩ := e
    by_cases hak : a = k
    · subst hak
      by_cases hk : a ∈ d <;> simp [stopRemovedStreams, hk, ih, streamKeys_cons]
    · by_cases hk : k ∈ d <;>
        simp [stopRemovedStreams, hk, ih, streamKeys_cons, hak]

/-- Helper: a push-stream-close effect is emitted exactly for the previous
keys that are no longer desired. -/
theorem stopRemovedStreams_closedPush (a : String) (d : List String) :
    ∀ m : List (String × Nat),
      AsrEffect.closedPushStream a ∈ (stopRemovedStreams m d).2
        ↔ a ∈ streamKeys m ∧ a ∉ d := by
  intro m
  induction m with
  | nil => simp [stopRemovedStreams, streamKeys_nil]
  | cons e rest ih =>
    obtain ⟨k, v⟩ := e
    by_cases hak : a = k
    · subst hak
      by_cases hk : a ∈ d <;> simp [stopRemovedStreams, hk, ih, streamKeys_cons]
    · by_cases hk : k ∈ d <;>
        simp [stopRemovedStreams, hk, ih, streamKeys_cons, hak]

/-- Helper: the stop phase emits no create effect. -/
theorem stopRemovedStreams_no_created (a : String) (d : List String) :
    ∀ m : List (String × Nat),
      AsrEffect.createdStream a ∉ (stopRemovedStreams m d).2 := by
  intro m
  induction m with
  | nil => simp [stopRemovedStreams]
  | cons e rest ih =>
    obtain ⟨k, v⟩ := e
    by_cases hk : k ∈ d <;> simp [stopRemovedStreams, hk, ih]

/-- C5: after `updateTranscriptionStreams`, the key set of the stream map
equals the desired language subscriptions exactly; a stream is created for
each desired key not already present, and each stream whose key is no
longer desired is stopped, its push stream closed, and removed from the
map. -/
theorem updateTranscriptionStreams_sync (streams : List (String × Nat))
    (desired : List String) (fresh : Nat) (k : String) :
    (k ∈ streamKeys (updateTranscriptionStreams streams desired fresh).1
      ↔ k ∈ desired)
    ∧ (AsrEffect.createdStream k ∈ (updateTranscriptionStreams streams desired fresh).2
      ↔ k ∈ desired ∧ k ∉ streamKeys streams)
    ∧ (AsrEffect.stoppedRecognizer k ∈ (updateTranscriptionStreams streams desired fresh).2
      ↔ k ∈ streamKeys streams ∧ k ∉ desired)
    ∧ (AsrEffect.closedPushStream k ∈ (updateTranscriptionStreams streams desired fresh).2
      ↔ k ∈ streamKeys streams ∧ k ∉ desired) := by
  unfold updateTranscriptionStreams
  refine ⟨?_, ?_, ?_, ?_⟩
  · rw [stopRemovedStreams_keys, createMissingStreams_keys]
    tauto
  · simp only [List.mem_append]
    rw [createMissingStreams_created]
    have hno := stopRemovedStreams_no_created k desired
      (createMissingStreams streams desired fresh).1
    tauto
  · simp only [List.mem_append]
    rw [stopRemovedStreams_stopped, createMissingStreams_keys]
    have hno := createMissingStreams_no_stopped k desired streams fresh
    tauto
  · simp only [List.mem_append]
    rw [stopRemovedStreams_closedPush, createMissingStreams_keys]
    have hno := createMissingStreams_no_closedPush k desired streams fresh
    tauto

/-- Helper: filtering a package name out twice equals filtering it once. -/
theorem filter_ne_idem (l : List String) (p : String) :
    (l.filter (· ≠ p)).filter (· ≠ p) = l.filter (· ≠ p) := by
  rw [List.filter_filter]
  simp

/-- Helper: a package is never a member of the list it was filtered out
of. -/
theorem not_mem_filter_ne_self (l : List String) (p : String) :
    p ∉ l.filter (· ≠ p) := by
  simp [List.mem_filter]

/-- Helper: the guarded append of `startAppSession` and `handleTpaInit`
always contains the package. -/
theorem mem_ite_append_self (l : List String) (p : String) :
    p ∈ (if p ∈ l then l else l ++ [p]) := by
  by_cases h : p ∈ l <;> simp [h]

/-- Helper: when the app record resolves, every branch of `stopAppSession`
(normal return, rethrow from subscription removal, rethrow from the display
update) leaves `activeAppSessions` filtered of the package. -/
theorem stopApp_activeApps (catalog : AppCatalog) (fail : StopFailSpec)
    (s : SessionState) (p : String) (app : AppRecord)
    (happ : getApp catalog p = some app) :
    (stopAppSession catalog fail s p).1.activeAppSessions
      = s.activeAppSessions.filter (· ≠ p) := by
  simp only [stopAppSession, happ]
  split
  · rfl
  · split <;> split <;> simp [filter_ne_idem]

/-- Helper: `stopAppSession` never touches `loadingApps`. -/
theorem stopApp_loadingApps (catalog : AppCatalog) (fail : StopFailSpec)
    (s : SessionState) (p : String) :
    (stopAppSession catalog fail s p).1.loadingApps = s.loadingApps := by
  cases happ : getApp catalog p with
  | none => simp [stopAppSession, happ]
  | some app =>
    simp only [stopAppSession, happ]
    split
    · rfl
    · split <;> split <;> rfl

/-- Helper: `stopAppSession` only removes entries from `appConnections`. -/
theorem stopApp_appConnections_mem (catalog : AppCatalog) (fail : StopFailSpec)
    (s : SessionState) (p a : String)
    (h : a ∈ (stopAppSession catalog fail s p).1.appConnections) :
    a ∈ s.appConnections := by
  cases happ : getApp catalog p with
  | none => simpa [stopAppSession, happ] using h
  | some app =>
    simp only [stopAppSession, happ] at h
    split at h
    · simpa using h
    · split at h <;> split at h <;> simp_all [List.mem_filter]

/-- Helper: stopping a list of resolvable packages filters all of them out
of `activeAppSessions`. -/
theorem stopAppsInOrder_activeApps (catalog : AppCatalog) (fail : StopFailSpec) :
    ∀ (qs : List String) (s : SessionState),
      (∀ q ∈ qs, (getApp catalog q).isSome) →
      (stopAppsInOrder catalog fail s qs).1.activeAppSessions
        = s.activeAppSessions.filter (fun a => decide (a ∉ qs)) := by
  intro qs
  induction qs with
  | nil => intro s h; simp [stopAppsInOrder]
  | cons q rest ih =>
    intro s h
    obtain ⟨app, happ⟩ := Option.isSome_iff_exists.mp (h q (List.mem_cons_self q rest))
    simp only [stopAppsInOrder]
    rw [ih _ (fun x hx => h x (List.mem_cons_of_mem q hx))]
    rw [stopApp_activeApps catalog fail s q app happ]
    rw [List.filter_filter]
    apply List.filter_congr
    intro a _
    by_cases h1 : a = q <;> by_cases h2 : a ∈ rest <;> simp [h1, h2]

/-- Helper: stopping a list of packages never touches `loadingApps`. -/
theorem stopAppsInOrder_loadingApps (catalog : AppCatalog) (fail : StopFailSpec) :
    ∀ (qs : List String) (s : SessionState),
      (stopAppsInOrder catalog fail s qs).1.loadingApps = s.loadingApps := by
  intro qs
  induction qs with
  | nil => intro s; rfl
  | cons q rest ih =>
    intro s
    simp only [stopAppsInOrder]
    rw [ih, stopApp_loadingApps]

/-- Helper: stopping a list of packages only removes app connections. -/
theorem stopAppsInOrder_appConnections_mem (catalog : AppCatalog)
    (fail : StopFailSpec) :
    ∀ (qs : List String) (s : SessionState) (a : String),
      a ∈ (stopAppsInOrder catalog fail s qs).1.appConnections →
      a ∈ s.appConnections := by
  intro qs
  induction qs with
  | nil => intro s a h; exact h
  | cons q rest ih =>
    intro s a h
    simp only [stopAppsInOrder] at h
    exact stopApp_appConnections_mem _ _ _ _ _ (ih _ _ h)

/-- Helper: a package that counts as STANDARD resolves in the catalog. -/
theorem isStandardApp_isSome (catalog : AppCatalog) (q : String)
    (h : isStandardApp catalog q = true) : (getApp catalog q).isSome := by
  cases hq : getApp catalog q with
  | none => simp [isStandardApp, hq] at h
  | some app => simp [hq]

/-- C10 counterexample: with `com.x` active but its app record missing,
`stopAppSession` propagates `AppNotFound` and `com.x` is still in
`activeAppSessions` when it returns. -/
theorem stopApp_appNotFound_leaves_active_cex :
    (stopAppSession [] noStopFailures activeXSession "com.x").2.2
        = Except.error StopError.appNotFound
    ∧ "com.x" ∈ (stopAppSession [] noStopFailures activeXSession
        "com.x").1.activeAppSessions := by
  exact ⟨rfl, by decide⟩

/-- C10 (amended): whenever the app record resolves, `stopAppSession`
leaves the package absent from `activeAppSessions` on every path, normal
return or propagated error; when the record is missing it throws
`AppNotFound` before touching the session, so the package may stay
active. -/
theorem stopApp_removes_active_when_found (catalog : AppCatalog)
    (fail : StopFailSpec) (s : SessionState) (p : String) :
    ((getApp catalog p).isSome = true →
      p ∉ (stopAppSession catalog fail s p).1.activeAppSessions)
    ∧ (getApp catalog p = none →
      stopAppSession catalog fail s p
        = (s, [], Except.error StopError.appNotFound)) := by
  constructor
  · intro h
    obtain ⟨app, happ⟩ := Option.isSome_iff_exists.mp h
    rw [stopApp_activeApps catalog fail s p app happ]
    exact not_mem_filter_ne_self _ _
  · intro h
    simp [stopAppSession, h]

/-- C10 witness: stopping `com.a` with an injected display-update throw
still leaves it absent from `activeAppSessions`. -/
theorem stopApp_removes_active_when_found_witness :
    (getApp standardCatalog "com.a").isSome = true
    ∧ "com.a" ∉ (stopAppSession standardCatalog
        { noStopFailures with displayUpdateThrows := true }
        standardSession "com.a").1.activeAppSessions :=
  ⟨by decide,
   (stopApp_removes_active_when_found standardCatalog
     { noStopFailures with displayUpdateThrows := true }
     standardSession "com.a").1 (by decide)⟩

/-- C3 counterexample: with a valid API key, a bind for the non-system
package `com.y` that is in neither `loadingApps` nor `activeAppSessions` is
accepted: the connection is stored, the ack is sent, and only the warning
flag is set — it is not rejected. -/
theorem tpa_bind_unlisted_accepted_cex :
    (handleTpaInit ["com.augmentos.dashboard"] true emptySession "com.y").2.2
        = TpaInitOutcome.accepted true
    ∧ "com.y" ∈ (handleTpaInit ["com.augmentos.dashboard"] true emptySession
        "com.y").1.appConnections
    ∧ (handleTpaInit ["com.augmentos.dashboard"] true emptySession "com.y").2.1
        = [LifecycleEffect.tpaConnectionAck "com.y"] := by
  decide

/-- C3 (amended): `handleTpaInit` rejects a bind exactly when the API key
is invalid; with a valid key the bind is always accepted — the connection
is stored in `appConnections` and the ack sent — and a non-system package
in neither `loadingApps` nor `activeAppSessions` merely sets the warning
flag; a loading package is moved from `loadingApps` to
`activeAppSessions`. -/
theorem handleTpaInit_accepts_when_key_valid (sys : List String)
    (s : SessionState) (p : String) :
    handleTpaInit sys false s p = (s, [], TpaInitOutcome.invalidKey)
    ∧ (handleTpaInit sys true s p).2.2
        = TpaInitOutcome.accepted
            (!decide (p ∈ sys) && !decide (p ∈ s.loadingApps)
              && !decide (p ∈ s.activeAppSessions))
    ∧ p ∈ (handleTpaInit sys true s p).1.appConnections
    ∧ (handleTpaInit sys true s p).2.1 = [LifecycleEffect.tpaConnectionAck p]
    ∧ (p ∈ s.loadingApps →
        p ∈ (handleTpaInit sys true s p).1.activeAppSessions
        ∧ p ∉ (handleTpaInit sys true s p).1.loadingApps) := by
  refine ⟨rfl, rfl, ?_, rfl, ?_⟩
  · simp only [handleTpaInit]
    by_cases hl : p ∈ s.loadingApps <;>
      by_cases hc : p ∈ s.appConnections <;> simp [hl, hc]
  · intro hl
    simp only [handleTpaInit]
    constructor
    · by_cases hc : p ∈ s.appConnections <;>
        by_cases ha : p ∈ s.activeAppSessions <;> simp [hl, hc, ha]
    · by_cases hc : p ∈ s.appConnections <;>
        simp [hl, hc, List.mem_filter]

/-- C3 witness: a loading package with a valid key is accepted and moved to
`activeAppSessions`. -/
theorem handleTpaInit_accepts_when_key_valid_witness :
    "com.x" ∈
      ({ emptySession with loadingApps := ["com.x"] } : SessionState).loadingApps
    ∧ "com.x" ∈ (handleTpaInit [] true
        { emptySession with loadingApps := ["com.x"] } "com.x").1.activeAppSessions
    ∧ "com.x" ∉ (handleTpaInit [] true
        { emptySession with loadingApps := ["com.x"] } "com.x").1.loadingApps := by
  have h := (handleTpaInit_accepts_when_key_valid []
    { emptySession with loadingApps := ["com.x"] } "com.x").2.2.2.2 (by decide)
  exact ⟨by decide, h.1, h.2⟩

/-- C1 counterexample: starting the background app `com.x` in a fresh
session puts it into `activeAppSessions` immediately after the successful
webhook, while `appConnections` is still empty — no
`tpa_connection_init` bind has occurred. -/
theorem startApp_active_without_bind_cex :
    "com.x" ∈ (startAppSession exampleCatalog noStartFailures emptySession
        "com.x").1.activeAppSessions
    ∧ (startAppSession exampleCatalog noStartFailures emptySession
        "com.x").1.appConnections = []
    ∧ (startAppSession exampleCatalog noStartFailures emptySession
        "com.x").2.2 = Except.ok "sess1-com.x" := by
  exact ⟨by decide, by decide, rfl⟩

/-- C1 (amended): for a fresh package with a resolvable record and a
successful webhook, `startAppSession` itself places the package in
`activeAppSessions` and removes it from `loadingApps`, without any TPA
bind (`appConnections` does not gain the package); it returns the
composite id; and the 5-second loading timer is then a no-op because the
package is no longer loading — the timer removes a package and tears down
the boot screen only while the package is still in `loadingApps`. -/
theorem startApp_active_after_webhook (catalog : AppCatalog)
    (fail : StartFailSpec) (s : SessionState) (p : String) (app : AppRecord)
    (happ : getApp catalog p = some app)
    (hload : p ∉ s.loadingApps) (hact : p ∉ s.activeAppSessions)
    (hconn : p ∉ s.appConnections) (hweb : fail.webhookFails = false) :
    p ∈ (startAppSession catalog fail s p).1.activeAppSessions
    ∧ p ∉ (startAppSession catalog fail s p).1.loadingApps
    ∧ p ∉ (startAppSession catalog fail s p).1.appConnections
    ∧ (startAppSession catalog fail s p).2.2
        = Except.ok (s.sessionId ++ "-" ++ p)
    ∧ startAppTimerFire (startAppSession catalog fail s p).1 p
        = ((startAppSession catalog fail s p).1, []) := by
  have hcond : ¬(p ∈ s.loadingApps ∨ p ∈ s.activeAppSessions) := by tauto
  simp only [startAppSession, happ, hcond, if_false, hweb, Bool.false_eq_true]
  by_cases hstd : (app.tpaType == TpaType.standard) = true
  · simp only [hstd, if_true]
    have hconn1 : p ∉ (stopAppsInOrder catalog fail.stopFail s
        (s.activeAppSessions.filter
          (fun q => q != p && isStandardApp catalog q))).1.appConnections :=
      fun h => hconn (stopAppsInOrder_appConnections_mem _ _ _ _ _ h)
    refine ⟨?_, ?_, ?_, trivial, ?_⟩
    · exact mem_ite_append_self _ _
    · exact not_mem_filter_ne_self _ _
    · simpa using hconn1
    · simp [startAppTimerFire, not_mem_filter_ne_self]
  · simp only [hstd, if_false]
    refine ⟨?_, ?_, ?_, trivial, ?_⟩
    · exact mem_ite_append_self _ _
    · exact not_mem_filter_ne_self _ _
    · simpa using hconn
    · simp [startAppTimerFire, not_mem_filter_ne_self]

/-- C1 witness: a STANDARD app started in a session holding another active
STANDARD app ends active, not loading and unbound, with a no-op timer. -/
theorem startApp_active_after_webhook_witness :
    getApp standardCatalog "com.b" = some recordB
    ∧ "com.b" ∈ (startAppSession standardCatalog noStartFailures
        standardSession "com.b").1.activeAppSessions
    ∧ "com.b" ∉ (startAppSession standardCatalog noStartFailures
        standardSession "com.b").1.appConnections := by
  have h := startApp_active_after_webhook standardCatalog noStartFailures
    standardSession "com.b" recordB (by decide) (by decide) (by decide)
    (by decide) rfl
  exact ⟨by decide, h.1, h.2.2.1⟩

/-- C4: starting a fresh STANDARD app with a successful webhook stops every
other active STANDARD app first, so that exactly the new package remains
among the STANDARD members of `activeAppSessions`, while non-STANDARD
active apps are left untouched. -/
theorem startApp_standard_exclusive (catalog : AppCatalog)
    (fail : StartFailSpec) (s : SessionState) (p : String) (app : AppRecord)
    (happ : getApp catalog p = some app)
    (hstd : app.tpaType = TpaType.standard)
    (hload : p ∉ s.loadingApps) (hact : p ∉ s.activeAppSessions)
    (hweb : fail.webhookFails = false) :
    (startAppSession catalog fail s p).1.activeAppSessions.filter
        (isStandardApp catalog) = [p]
    ∧ (startAppSession catalog fail s p).1.activeAppSessions.filter
        (fun q => !isStandardApp catalog q)
      = s.activeAppSessions.filter (fun q => !isStandardApp catalog q) := by
  have hstdp : isStandardApp catalog p = true := by
    simp [isStandardApp, happ, hstd]
  have hsome : ∀ q ∈ s.activeAppSessions.filter
      (fun q => q != p && isStandardApp catalog q), (getApp catalog q).isSome := by
    intro q hq
    rw [List.mem_filter] at hq
    have h2 := hq.2
    simp only [Bool.and_eq_true] at h2
    exact isStandardApp_isSome catalog q h2.2
  have hstops := stopAppsInOrder_activeApps catalog fail.stopFail
    (s.activeAppSessions.filter (fun q => q != p && isStandardApp catalog q))
    s hsome
  have hpstop : p ∉ (stopAppsInOrder catalog fail.stopFail s
      (s.activeAppSessions.filter
        (fun q => q != p && isStandardApp catalog q))).1.activeAppSessions := by
    rw [hstops]
    intro h
    exact hact (List.mem_filter.mp h).1
  have hcond : ¬(p ∈ s.loadingApps ∨ p ∈ s.activeAppSessions) := by tauto
  have hbeq : (app.tpaType == TpaType.standard) = true := by simp [hstd]
  have hactive : (startAppSession catalog fail s p).1.activeAppSessions
      = (stopAppsInOrder catalog fail.stopFail s
          (s.activeAppSessions.filter
            (fun q => q != p && isStandardApp catalog q))).1.activeAppSessions
        ++ [p] := by
    simp only [startAppSession, happ, hcond, if_false, hweb,
      Bool.false_eq_true, hbeq, if_true]
    simp [hpstop]
  rw [hactive, hstops]
  constructor
  · rw [List.filter_append]
    have hnil : (s.activeAppSessions.filter
        (fun a => decide (a ∉ s.activeAppSessions.filter
          (fun q => q != p && isStandardApp catalog q)))).filter
        (isStandardApp catalog) = [] := by
      rw [List.filter_eq_nil_iff]
      intro a ha hstda
      rw [List.mem_filter] at ha
      have hmem : a ∈ s.activeAppSessions := ha.1
      have hnotin := of_decide_eq_true ha.2
      apply hnotin
      rw [List.mem_filter]
      refine ⟨hmem, ?_⟩
      simp only [Bool.and_eq_true, bne_iff_ne]
      exact ⟨fun haeq => hact (haeq ▸ hmem), hstda⟩
    rw [hnil]
    simp [hstdp]
  · rw [List.filter_append, List.filter_filter]
    have hcongr : ∀ a ∈ s.activeAppSessions,
        ((!isStandardApp catalog a)
          && decide (a ∉ s.activeAppSessions.filter
            (fun q => q != p && isStandardApp catalog q)))
        = !isStandardApp catalog a := by
      intro a _
      by_cases hsa : isStandardApp catalog a = true
      · simp [hsa]
      · have hnot : a ∉ s.activeAppSessions.filter
            (fun q => q != p && isStandardApp catalog q) := by
          intro hmem
          rw [List.mem_filter] at hmem
          have h2 := hmem.2
          simp only [Bool.and_eq_true] at h2
          exact hsa h2.2
        simp [hsa, hnot]
    rw [List.filter_congr hcongr]
    simp [hstdp]

/-- C4 witness: starting the STANDARD app `com.b` while the STANDARD app
`com.a` and the BACKGROUND app `com.bg` are active leaves `com.b` as the
only STANDARD member, with `com.bg` untouched. -/
theorem startApp_standard_exclusive_witness :
    recordB.tpaType = TpaType.standard
    ∧ (startAppSession standardCatalog noStartFailures standardSession
        "com.b").1.activeAppSessions.filter (isStandardApp standardCatalog)
      = ["com.b"]
    ∧ (startAppSession standardCatalog noStartFailures standardSession
        "com.b").1.activeAppSessions.filter
        (fun q => !isStandardApp standardCatalog q)
      = standardSession.activeAppSessions.filter
        (fun q => !isStandardApp standardCatalog q) := by
  have h := startApp_standard_exclusive standardCatalog noStartFailures
    standardSession "com.b" recordB (by decide) rfl (by decide) (by decide) rfl
  exact ⟨rfl, h.1, h.2⟩

end AugmentOS
